import Mathlib

/-!
Verification development for the `yt-DeepResearch-Frontend` repository.

The subject of the claims is the streaming-event reducer of
`components/ResearchInterface.tsx` (the first component version in that file,
lines 19-791), the alternate reducer kept in the repository (the unnamed
source file that is a second `ResearchInterface.tsx`, called `V2` below), and
the multi-model comparison runner of `components/ModelComparison.tsx`.

The TypeScript is shallowly embedded: React `useState` cells become fields of
an explicit state record, the per-line `for` loop over `data: <json>` lines
becomes a fold, and the per-event body becomes a pure step function.  JS
strings are modelled as Lean `String` (lengths count codepoints; all contents
exercised here are ASCII or single BMP emoji), JS `\s` and `toLowerCase` are
modelled on ASCII (all scrutinised literals are ASCII), and `JSON.parse` is
modelled by an executable JSON parser (`jsonParse`) covering null / booleans /
numbers / strings / arrays / objects with the standard escapes except `\uXXXX`
(no claim input uses unicode escapes; a failing escape parses as malformed,
which the parse-guard claims treat uniformly).
-/

set_option maxRecDepth 80000

/-- ASCII whitespace, modelling the characters JS `\s` and `trim` act on for
the ASCII inputs considered here: space, tab, newline, carriage return,
vertical tab, form feed. -/
def isWsChar (c : Char) : Bool :=
  c == ' ' || c == '\t' || c == '\n' || c == '\x0d' || c == '\x0b' || c == '\x0c'

/-- ASCII lower-casing of one character (model of `String.toLowerCase` on the
ASCII strings the code inspects). -/
def asciiLower (c : Char) : Char :=
  if 'A' ≤ c && c ≤ 'Z' then Char.ofNat (c.toNat + 32) else c

def isAsciiAlpha (c : Char) : Bool :=
  ('a' ≤ c && c ≤ 'z') || ('A' ≤ c && c ≤ 'Z')

def isAsciiDigit (c : Char) : Bool :=
  '0' ≤ c && c ≤ '9'

/-- Characters allowed in the domain-ish character class `[a-zA-Z0-9.-]` of the
`from`-pattern of `extractSourcesFromContent`. -/
def isDomainChar (c : Char) : Bool :=
  isAsciiAlpha c || isAsciiDigit c || c == '.' || c == '-'

/-- `hasPrefixCh needle hay` holds when `needle` is a prefix of `hay`
(character lists, exact comparison). -/
def hasPrefixCh : List Char → List Char → Bool
  | [], _ => true
  | _ :: _, [] => false
  | a :: as, b :: bs => a == b && hasPrefixCh as bs

/-- `hasPrefixCI needle hay`: case-insensitive (ASCII) prefix test, modelling
the `i` flag of the source-mention regexes. -/
def hasPrefixCI : List Char → List Char → Bool
  | [], _ => true
  | _ :: _, [] => false
  | a :: as, b :: bs => asciiLower a == asciiLower b && hasPrefixCI as bs

/-- `containsCh hay needle`: substring test on character lists, modelling
JS `String.prototype.includes`. -/
def containsCh : List Char → List Char → Bool
  | [], needle => hasPrefixCh needle []
  | c :: t, needle => hasPrefixCh needle (c :: t) || containsCh t needle

/-- Model of JS `s.includes(sub)`. -/
def jsIncludes (s sub : String) : Bool :=
  containsCh s.toList sub.toList

/-- Model of JS `String.prototype.trim` (ASCII whitespace). -/
def strTrim (s : String) : String :=
  ⟨((s.toList.dropWhile isWsChar).reverse.dropWhile isWsChar).reverse⟩

/-- `takeLastN n l` is JS `l.slice(-n)`: the last `min n l.length` elements. -/
def takeLastN (n : Nat) (l : List α) : List α :=
  l.drop (l.length - n)

/-- JS truthiness of an optional string field: `undefined` and `""` are falsy,
every other string is truthy. -/
def truthy : Option String → Bool
  | none => false
  | some s => !s.isEmpty

/-- `getLastCh l` is JS `l[l.length - 1]` for a list (`undefined` ↦ `none`). -/
def getLastCh (l : List α) : Option α :=
  l.getLast?

/-- Model of JS `s.startsWith(p)`. -/
def startsWithLit (s p : String) : Bool :=
  hasPrefixCh p.toList s.toList

def splitNlAux : List Char → List Char → List String
  | [], acc => [⟨acc.reverse⟩]
  | '\n' :: t, acc => (⟨acc.reverse⟩ : String) :: splitNlAux t []
  | c :: t, acc => splitNlAux t (c :: acc)

/-- Model of JS `s.split('\n')`: the pieces between newlines, empty pieces
kept (splitting the empty string yields `[""]`). -/
def splitNl (s : String) : List String :=
  splitNlAux s.toList []

/-! ### JSON values and an executable `JSON.parse` model -/

/-- JSON values as produced by `JSON.parse`.  Numbers are kept as their raw
source text: the reducers never do arithmetic on parsed numbers (the only
numeric field, `duration`, is used for display). -/
inductive JValue where
  | jnull : JValue
  | jbool (b : Bool) : JValue
  | jnum (raw : String) : JValue
  | jstr (s : String) : JValue
  | jarr (elems : List JValue) : JValue
  | jobj (fields : List (String × JValue)) : JValue

/-- JSON insignificant whitespace. -/
def isJsonWs (c : Char) : Bool :=
  c == ' ' || c == '\t' || c == '\n' || c == '\x0d'

def skipWs (cs : List Char) : List Char :=
  cs.dropWhile isJsonWs

/-- Parse the body of a JSON string literal (opening quote already consumed),
returning the decoded characters and the input after the closing quote. -/
def parseStringBody : List Char → Option (List Char × List Char)
  | [] => none
  | '"' :: rest => some ([], rest)
  | '\\' :: e :: rest => do
    let c ← match e with
      | '"' => some '"'
      | '\\' => some '\\'
      | '/' => some '/'
      | 'b' => some '\x08'
      | 'f' => some '\x0c'
      | 'n' => some '\n'
      | 'r' => some '\x0d'
      | 't' => some '\t'
      | _ => none
    let (s, rest') ← parseStringBody rest
    some (c :: s, rest')
  | '\\' :: [] => none
  | c :: rest => do
    let (s, rest') ← parseStringBody rest
    some (c :: s, rest')

/-- Parse a JSON number starting at the current position, returning its raw
text and the remaining input. -/
def parseNumberRaw (cs : List Char) : Option (List Char × List Char) :=
  let (sign, cs₁) := match cs with
    | '-' :: t => (['-'], t)
    | _ => (([] : List Char), cs)
  let intPart := cs₁.takeWhile isAsciiDigit
  if intPart.isEmpty then none else
  let cs₂ := cs₁.drop intPart.length
  let (frac, cs₃) := match cs₂ with
    | '.' :: t =>
      let ds := t.takeWhile isAsciiDigit
      if ds.isEmpty then (([] : List Char), cs₂) else ('.' :: ds, t.drop ds.length)
    | _ => (([] : List Char), cs₂)
  let (expo, cs₄) := match cs₃ with
    | e :: t =>
      if e == 'e' || e == 'E' then
        let (es, t₁) := match t with
          | s :: t' => if s == '+' || s == '-' then ([e, s], t') else ([e], t)
          | [] => ([e], t)
        let ds := t₁.takeWhile isAsciiDigit
        if ds.isEmpty then (([] : List Char), cs₃) else (es ++ ds, t₁.drop ds.length)
      else (([] : List Char), cs₃)
    | [] => (([] : List Char), cs₃)
  some (sign ++ intPart ++ frac ++ expo, cs₄)

mutual

/-- Fuel-indexed recursive-descent parser for one JSON value. -/
def parseJValue : Nat → List Char → Option (JValue × List Char)
  | 0, _ => none
  | Nat.succ fuel, cs =>
    match skipWs cs with
    | '"' :: rest => do
      let (s, rest') ← parseStringBody rest
      some (JValue.jstr ⟨s⟩, rest')
    | '\x7b' :: rest => parseJFields fuel (skipWs rest) true
    | '[' :: rest => parseJElems fuel (skipWs rest) true
    | 't' :: 'r' :: 'u' :: 'e' :: rest => some (JValue.jbool true, rest)
    | 'f' :: 'a' :: 'l' :: 's' :: 'e' :: rest => some (JValue.jbool false, rest)
    | 'n' :: 'u' :: 'l' :: 'l' :: rest => some (JValue.jnull, rest)
    | cs' => do
      let (raw, rest) ← parseNumberRaw cs'
      some (JValue.jnum ⟨raw⟩, rest)

/-- Parse the fields of a JSON object after `{`; `first` marks whether no field
has been consumed yet (so `}` may follow immediately). -/
def parseJFields : Nat → List Char → Bool → Option (JValue × List Char)
  | 0, _, _ => none
  | Nat.succ _, '\x7d' :: rest, true => some (JValue.jobj [], rest)
  | Nat.succ fuel, cs, _ =>
    match skipWs cs with
    | '"' :: rest => do
      let (k, rest₁) ← parseStringBody rest
      match skipWs rest₁ with
      | ':' :: rest₂ => do
        let (v, rest₃) ← parseJValue fuel rest₂
        match skipWs rest₃ with
        | ',' :: rest₄ => do
          let (tail, rest₅) ← parseJFields fuel rest₄ false
          match tail with
          | JValue.jobj fs => some (JValue.jobj ((⟨k⟩, v) :: fs), rest₅)
          | _ => none
        | '\x7d' :: rest₄ => some (JValue.jobj [(⟨k⟩, v)], rest₄)
        | _ => none
      | _ => none
    | _ => none

/-- Parse the elements of a JSON array after `[`. -/
def parseJElems : Nat → List Char → Bool → Option (JValue × List Char)
  | 0, _, _ => none
  | Nat.succ _, ']' :: rest, true => some (JValue.jarr [], rest)
  | Nat.succ fuel, cs, _ => do
    let (v, rest) ← parseJValue fuel cs
    match skipWs rest with
    | ',' :: rest₁ => do
      let (tail, rest₂) ← parseJElems fuel rest₁ false
      match tail with
      | JValue.jarr vs => some (JValue.jarr (v :: vs), rest₂)
      | _ => none
    | ']' :: rest₁ => some (JValue.jarr [v], rest₁)
    | _ => none

end

/-- Model of `JSON.parse`: one value, optionally surrounded by whitespace,
with nothing after it. -/
def jsonParse (s : String) : Option JValue :=
  match parseJValue (s.length + 2) s.toList with
  | some (v, rest) => if (skipWs rest).isEmpty then some v else none
  | none => none

/-! ### Model of the `/g`-scanning regex heuristics

Each matcher below tries one regex of the source at the current position and
returns the value the code derives from the match (the raw URL, or the trimmed
capture group after `match.replace(pattern, '$1').trim()`) together with the
input after the full match.  `scanAllCh` then models the left-to-right
non-overlapping scan a JS global regex performs: on a match scanning resumes
after the matched text, otherwise it advances one character.  All matchers
consume at least one character on success. -/

def scanAllAux (m : List Char → Option (String × List Char)) :
    Nat → List Char → List String
  | 0, _ => []
  | Nat.succ fuel, cs =>
    match m cs with
    | some (r, rest) => r :: scanAllAux m fuel rest
    | none =>
      match cs with
      | [] => []
      | _ :: t => scanAllAux m fuel t

def scanAllCh (m : List Char → Option (String × List Char)) (cs : List Char) :
    List String :=
  scanAllAux m (cs.length + 1) cs

/-- Characters that terminate a URL for the first component's regex
`/https?:\/\/[^\s<>"{}|\\^`[\]]+/g` (the backtick is written by code). -/
def urlStopChar (c : Char) : Bool :=
  isWsChar c || c == '<' || c == '>' || c == '"' || c == '\x7b' || c == '\x7d' ||
    c == '|' || c == '\\' || c == '^' || c == Char.ofNat 96 || c == '[' || c == ']'

/-- Characters that terminate a URL for the V2 regex `/https?:\/\/[^\s]+/g`. -/
def urlStopCharSimple (c : Char) : Bool :=
  isWsChar c

/-- After a consumed scheme `pre` (`http` or `https`), match `://` and then a
non-empty run of allowed characters. -/
def urlTail (stop : Char → Bool) (pre : List Char) (rest : List Char) :
    Option (String × List Char) :=
  match rest with
  | ':' :: '/' :: '/' :: body =>
    let run := body.takeWhile (fun c => !stop c)
    if run.isEmpty then none
    else some (⟨pre ++ [':', '/', '/'] ++ run⟩, body.drop run.length)
  | _ => none

/-- One attempt of `/https?:\/\/[^...]+/` at the current position (the `s` is
taken greedily, with regex backtracking to the `s`-less alternative). -/
def matchUrlAt (stop : Char → Bool) (cs : List Char) : Option (String × List Char) :=
  match cs with
  | 'h' :: 't' :: 't' :: 'p' :: rest =>
    match rest with
    | 's' :: rest' =>
      match urlTail stop ['h', 't', 't', 'p', 's'] rest' with
      | some r => some r
      | none => urlTail stop ['h', 't', 't', 'p'] rest
    | _ => urlTail stop ['h', 't', 't', 'p'] rest
  | _ => none

/-- One attempt of `/SOURCE:\s*([^\n]+)/i` (also used for the identical
`/Source:\s*([^\n]+)/i`).  The backtracking edge case in which `\s*` swallows
the rest of the input and gives characters back is not replicated: such
captures are all-whitespace, trim to `""` and are dropped by the final
`length > 3` filter. -/
def matchSourceAt (cs : List Char) : Option (String × List Char) :=
  if hasPrefixCI "source:".toList cs then
    let afterP := cs.drop 7
    let ws := afterP.takeWhile isWsChar
    let rest := afterP.drop ws.length
    match rest with
    | [] => none
    | _ :: _ =>
      let cap := rest.takeWhile (fun c => c != '\n')
      some (strTrim ⟨cap⟩, rest.drop cap.length)
  else none

def alphaRunLen (l : List Char) : Nat :=
  (l.takeWhile isAsciiAlpha).length

/-- Largest index `n ≥ 1` (searched downward from the initial argument, as the
greedy `[a-zA-Z0-9.-]+` backtracks) such that `run` has a `'.'` at `n` followed
by at least two letters. -/
def fromDotIndex (run : List Char) : Nat → Option Nat
  | 0 => none
  | Nat.succ n =>
    if run.get? (Nat.succ n) == some '.' && decide (2 ≤ alphaRunLen (run.drop (n + 2))) then
      some (Nat.succ n)
    else fromDotIndex run n

/-- One attempt of `/from\s+([a-zA-Z0-9.-]+\.[a-zA-Z]{2,})/i`. -/
def matchFromAt (cs : List Char) : Option (String × List Char) :=
  if hasPrefixCI "from".toList cs then
    let afterP := cs.drop 4
    let ws := afterP.takeWhile isWsChar
    if ws.isEmpty then none else
    let rest := afterP.drop ws.length
    let run := rest.takeWhile isDomainChar
    match fromDotIndex run (run.length - 1) with
    | none => none
    | some n =>
      let m := alphaRunLen (run.drop (n + 1))
      some (strTrim ⟨run.take (n + 1 + m)⟩, rest.drop (n + 1 + m))
  else none

/-- One attempt of `/keyword\s+([^\n,]+)/i` (for `according to` and
`cited from`).  As for `matchSourceAt`, the backtracking edge in which the
capture would be all-whitespace is not replicated. -/
def matchKeyedAt (keyword : String) (cs : List Char) : Option (String × List Char) :=
  if hasPrefixCI keyword.toList cs then
    let afterP := cs.drop keyword.length
    let ws := afterP.takeWhile isWsChar
    if ws.isEmpty then none else
    let rest := afterP.drop ws.length
    match rest with
    | [] => none
    | c :: _ =>
      if c == ',' then none
      else
        let cap := rest.takeWhile (fun d => d != '\n' && d != ',')
        some (strTrim ⟨cap⟩, rest.drop cap.length)
  else none

/-- `[...new Set(l)]`: deduplication keeping the first occurrence of each
element, in insertion order. -/
def dedupFirst : List String → List String :=
  go []
where
  go (seen : List String) : List String → List String
    | [] => []
    | x :: xs => if seen.contains x then go seen xs else x :: go (x :: seen) xs

/-- `extractSourcesFromContent` of the first `ResearchInterface` version:
URL regex matches, then the five source-mention patterns (the `SOURCE:` and
`Source:` patterns are both case-insensitive and therefore scanned twice,
exactly as the code pushes both results), deduplicated, keeping only entries
longer than three characters. -/
def extractSourcesFromContent (content : String) : List String :=
  let cl := content.toList
  let urls := scanAllCh (matchUrlAt urlStopChar) cl
  let srcUpper := scanAllCh matchSourceAt cl
  let srcLower := scanAllCh matchSourceAt cl
  let froms := scanAllCh matchFromAt cl
  let accs := scanAllCh (matchKeyedAt "according to") cl
  let cits := scanAllCh (matchKeyedAt "cited from") cl
  (dedupFirst (urls ++ srcUpper ++ srcLower ++ froms ++ accs ++ cits)).filter
    (fun s => 3 < s.length)

/-- `extractSourcesFromContent` of the V2 component: URL matches of
`/https?:\/\/[^\s]+/g`, deduplicated. -/
def extractSourcesSimple (content : String) : List String :=
  dedupFirst (scanAllCh (matchUrlAt urlStopCharSimple) content.toList)

/-! ### Model of the final-report pattern extraction -/

/-- First match of `/marker(.*)$/m` (no global flag): the capture group runs
from after the first occurrence of the literal `marker` to the end of that
line. -/
def lineCaptureAfter (mk : List Char) : List Char → Option String
  | [] => none
  | c :: t =>
    if hasPrefixCh mk (c :: t) then
      some ⟨((c :: t).drop mk.length).takeWhile (fun d => d != '\n')⟩
    else lineCaptureAfter mk t

/-- First match of `/Report \d+: (.*)$/m`. -/
def reportNumCapture : List Char → Option String
  | [] => none
  | c :: t =>
    (if hasPrefixCh "Report ".toList (c :: t) then
      let rest := (c :: t).drop 7
      let ds := rest.takeWhile isAsciiDigit
      if ds.isEmpty then none
      else
        match rest.drop ds.length with
        | ':' :: ' ' :: r => some ⟨r.takeWhile (fun d => d != '\n')⟩
        | _ => none
    else none) <|> reportNumCapture t

/-- The acceptance test the pattern loop applies to a match: the capture must
be truthy and trim to more than 50 characters; the trimmed capture is used. -/
def usableCapture : Option String → Option String
  | none => none
  | some c => if c != "" && decide (50 < (strTrim c).length) then some (strTrim c) else none

/-- The five-pattern loop of the `research_complete` branch: the first pattern
(in source order) whose capture passes `usableCapture` wins. -/
def reportPatternResult (content : String) : Option String :=
  usableCapture (lineCaptureAfter "📄 Final Report: ".toList content.toList) <|>
  usableCapture (lineCaptureAfter "📄 Generated Report: ".toList content.toList) <|>
  usableCapture (lineCaptureAfter "📋 Generated Report: ".toList content.toList) <|>
  usableCapture (lineCaptureAfter "Final Report: ".toList content.toList) <|>
  usableCapture (reportNumCapture content.toList)

/-! ### Streaming events -/

/-- A parsed server-sent event.  Fields are the optional JSON fields the
reducers read; a field is `some` only when present with a string value
(adversarial non-string field values are not modelled — no claim exercises
them).  `duration` keeps the raw number text (used only for display),
`metadata` keeps the raw JSON value. -/
structure StreamingEvent where
  type : Option String := none
  stage : Option String := none
  content : Option String := none
  node_name : Option String := none
  error : Option String := none
  timestamp : Option String := none
  duration : Option String := none
  metadata : Option JValue := none

/-- String-valued field lookup (events carry each key at most once). -/
def jGetStr (fs : List (String × JValue)) (k : String) : Option String :=
  match fs.lookup k with
  | some (JValue.jstr s) => some s
  | _ => none

/-- Build a `StreamingEvent` from a parsed JSON value.  A non-object JSON
value spreads to an object with no fields. -/
def rawEventOfJValue (v : JValue) : StreamingEvent :=
  match v with
  | JValue.jobj fs =>
    { type := jGetStr fs "type"
      stage := jGetStr fs "stage"
      content := jGetStr fs "content"
      node_name := jGetStr fs "node_name"
      error := jGetStr fs "error"
      timestamp := jGetStr fs "timestamp"
      duration := match fs.lookup "duration" with
        | some (JValue.jnum r) => some r
        | _ => none
      metadata := fs.lookup "metadata" }
  | _ => {}

/-- `rawEventOfJValue` plus the first component's
`timestamp: eventData.timestamp || new Date().toISOString()` defaulting (the
wall clock is the abstract string `now`). -/
def eventOfJValue (now : String) (v : JValue) : StreamingEvent :=
  let e := rawEventOfJValue v
  { e with timestamp := if truthy e.timestamp then e.timestamp else some now }

/-! ### The first `ResearchInterface` reducer -/

inductive MsgType where
  | user : MsgType
  | system : MsgType
  | assistant : MsgType
deriving DecidableEq

/-- A chat message.  The `Date.now()`-derived ids of the three messages a
session creates are modelled by the distinct constants 0, 1, 2. -/
structure Message where
  id : Nat
  mtype : MsgType
  content : String
  isStreaming : Bool := false
deriving DecidableEq

def userMessageId : Nat := 0
def systemMessageId : Nat := 1
def finalMessageId : Nat := 2

/-- The `useState` cells of the first `ResearchInterface` component that the
stream loop touches.  `now` is the abstract wall-clock string used for log
timestamps and timestamp defaulting (constant across one fold; its value is
display-only).  The 2-second typing-decay timeout is not modelled (wall-clock
behaviour); `isTyping` reflects the synchronous writes only. -/
structure RState where
  messages : List Message
  streamingEvents : List StreamingEvent
  currentStage : String
  apiCallLogs : List String
  isStreaming : Bool
  isTyping : Bool
  currentTypingStage : String
  now : String

/-- State after `handleSubmit` has reset the session and posted the user and
system messages, as the stream loop starts. -/
def initState (query modelName now : String) : RState :=
  { messages :=
      [ { id := userMessageId, mtype := MsgType.user, content := query }
      , { id := systemMessageId, mtype := MsgType.system
        , content := "Starting deep research with " ++ modelName ++ "..."
        , isStreaming := true } ]
    streamingEvents := []
    currentStage := ""
    apiCallLogs := []
    isStreaming := true
    isTyping := false
    currentTypingStage := ""
    now := now }

/-- The log entry the transparency logger builds for a content-bearing event
(`""` when none is kept). -/
def logEntryFor (st : RState) (e : StreamingEvent) : String :=
  let c := e.content.getD ""
  if e.type == some "api_call" then "[" ++ st.now ++ "] 🔗 " ++ c
  else if e.type == some "stage_start" || e.type == some "stage_update" then
    "[" ++ st.now ++ "] " ++ c
  else if e.type == some "research_step" then "[" ++ st.now ++ "] 🔍 " ++ c
  else if e.type == some "research_finding" then "[" ++ st.now ++ "] 📊 " ++ c
  else if decide (20 < c.length) then "[" ++ st.now ++ "] " ++ c
  else ""

/-- `event.duration?.toFixed(1)` as interpolated into the completion message
(the numeric rounding of `toFixed` is not modelled; the raw number text is
used, and a missing duration interpolates as `undefined`). -/
def durationDisplay (e : StreamingEvent) : String :=
  match e.duration with
  | some d => d
  | none => "undefined"

/-- `event.error || event.content || 'An unexpected error occurred'`. -/
def errMsgOf (e : StreamingEvent) : String :=
  if truthy e.error then e.error.getD ""
  else if truthy e.content then e.content.getD ""
  else "An unexpected error occurred"

def isReportCandidate (e : StreamingEvent) : Bool :=
  e.node_name == some "final_report_generation" && truthy e.content

def fallbackReport : String := "Research completed successfully!"

/-- The `## Sources and References` block appended to a final report. -/
def sourcesAppendix (srcs : List String) : String :=
  "\n\n## Sources and References\n" ++
    String.join (srcs.enum.map fun p => toString (p.1 + 1) ++ ". " ++ p.2 ++ "\n")

/-- The final-report selection of the `research_complete` branch: take the last
event with `node_name === 'final_report_generation'` and truthy content, run
the pattern loop on it, fall back to its whole content when that is longer
than 100 characters, then append extracted sources.  (The code's guard
`finalReportContent === "Research completed successfully!"` before the
length-100 fallback is equivalent to "no pattern matched": a pattern result
always trims to more than 50 characters while the fallback string has 32.)
With no candidate event the literal fallback string is returned. -/
def selectFinalReportContent (allEvents : List StreamingEvent) : String :=
  let finalReportEvents := allEvents.filter isReportCandidate
  match getLastCh finalReportEvents with
  | none => fallbackReport
  | some lastReportEvent =>
    let c := lastReportEvent.content.getD ""
    let base :=
      match reportPatternResult c with
      | some r => r
      | none => if decide (100 < c.length) then c else fallbackReport
    let srcs := extractSourcesFromContent base
    if decide (0 < srcs.length) && !jsIncludes base "Sources and References" then
      base ++ sourcesAppendix srcs
    else base

/-- The API-call transparency logging block (`if (event.content) { ... }`):
when a log entry is produced it is appended to `[...prev.slice(-50), logEntry]`. -/
def logPhase (st : RState) (e : StreamingEvent) : RState :=
  if truthy e.content then
    if logEntryFor st e != "" then
      { st with apiCallLogs := takeLastN 50 st.apiCallLogs ++ [logEntryFor st e] }
    else st
  else st

/-- The stage-tracking block (`if (event.stage) { ... }`). -/
def stagePhase (st : RState) (e : StreamingEvent) : RState :=
  if truthy e.stage then
    { st with currentStage := e.stage.getD "", currentTypingStage := e.stage.getD ""
            , isTyping := true }
  else st

/-- The update applied to each existing message on completion: the system
message content becomes the duration summary and stops streaming. -/
def sysFinalize (e : StreamingEvent) (m : Message) : Message :=
  if m.id == systemMessageId then
    { m with content := "Research completed in " ++ durationDisplay e ++ "s"
           , isStreaming := false }
  else m

/-- The assistant message appended on completion, carrying the selected final
report. -/
def finalReportMessage (allEvents : List StreamingEvent) : Message :=
  { id := finalMessageId, mtype := MsgType.assistant
  , content := selectFinalReportContent allEvents }

/-- The completion block: on `research_complete` streaming stops, the event is
folded into `streamingEvents`, the system message is finalised and the
selected final report is appended as the assistant message; any other event is
just appended to `streamingEvents`. -/
def completePhase (st : RState) (e : StreamingEvent) : RState :=
  if e.type == some "research_complete" then
    { st with
        isStreaming := false
        streamingEvents := st.streamingEvents ++ [e]
        messages := st.messages.map (sysFinalize e) ++
          [finalReportMessage (st.streamingEvents ++ [e])] }
  else { st with streamingEvents := st.streamingEvents ++ [e] }

/-- The retryability heuristic of the error block. -/
def isRetryableError (errorMessage : String) : Bool :=
  jsIncludes errorMessage "500" || jsIncludes errorMessage "rate limit" ||
    jsIncludes errorMessage "timeout"

/-- The message displayed for an error event. -/
def errorDisplayMessage (errorMessage : String) : String :=
  if isRetryableError errorMessage then
    errorMessage ++ " - This might be temporary. You can try again."
  else "Error: " ++ errorMessage

/-- The update applied to each existing message on an error event: the system
message content becomes the display message and stops streaming. -/
def sysErrorize (e : StreamingEvent) (m : Message) : Message :=
  if m.id == systemMessageId then
    { m with content := errorDisplayMessage (errMsgOf e), isStreaming := false }
  else m

/-- The error block: streaming and typing stop and the system message becomes
the display message (no retry is issued; the user must resubmit). -/
def errorPhase (st : RState) (e : StreamingEvent) : RState :=
  if e.type == some "error" then
    { st with
        isStreaming := false
        isTyping := false
        messages := st.messages.map (sysErrorize e) }
  else st

/-- One iteration of the per-event body of the stream loop: logging, stage
tracking, completion handling or ordinary append, error handling — in source
order. -/
def processEvent (st : RState) (e : StreamingEvent) : RState :=
  errorPhase (completePhase (stagePhase (logPhase st e) e) e) e

/-- One stream line: events come from `data: `-prefixed lines whose payload
parses as JSON; everything else yields no event. -/
def parseDataLine (now : String) (line : String) : Option StreamingEvent :=
  if startsWithLit line "data: " then (jsonParse (line.drop 6)).map (eventOfJValue now)
  else none

/-- The per-line loop: lines failing the `data: ` test or the `JSON.parse`
inside the try/catch are skipped and the loop continues (the catch only
logs). -/
def processLines (st : RState) : List String → RState
  | [] => st
  | line :: rest =>
    match parseDataLine st.now line with
    | some e => processLines (processEvent st e) rest
    | none => processLines st rest

/-- The chunk loop: each decoded chunk is appended to the carry buffer, the
buffer is split on newlines, the last (possibly incomplete) piece becomes the
new carry, the complete lines are processed.  A non-empty final carry is
discarded when the stream ends, as in the code. -/
def processChunksAux (st : RState) (buffer : String) : List String → RState
  | [] => st
  | chunk :: rest =>
    let lines := splitNl (buffer ++ chunk)
    processChunksAux (processLines st lines.dropLast) ((getLastCh lines).getD "") rest

def processChunks (st : RState) (chunks : List String) : RState :=
  processChunksAux st "" chunks

/-- The catch handler of `handleSubmit`: an abort is only logged, any other
error rewrites the system message; both paths clear `isStreaming`. -/
inductive StreamError where
  | abortError : StreamError
  | other (msg : String) : StreamError

def handleStreamCatch (st : RState) (err : StreamError) : RState :=
  match err with
  | StreamError.abortError => { st with isStreaming := false }
  | StreamError.other msg =>
    { st with
        isStreaming := false
        messages := st.messages.map fun m =>
          if m.id == systemMessageId then
            { m with content := "Connection error: " ++ msg, isStreaming := false }
          else m }

def stopStreaming (st : RState) : RState :=
  { st with isStreaming := false }

/-- The user pressing Stop: `stopStreaming` aborts the fetch (rejecting the
pending read with an `AbortError`, handled by the catch) and clears
`isStreaming`. -/
def abortSession (st : RState) : RState :=
  handleStreamCatch (stopStreaming st) StreamError.abortError

def lastAssistantContent (st : RState) : Option String :=
  ((st.messages.filter fun m => m.mtype == MsgType.assistant).getLast?).map Message.content

/-- The session's derived SourceSet: the union, in event order, of the
per-event `extractSourcesFromContent` results the component computes for each
content-bearing streamed event. -/
def sessionSources (st : RState) : List String :=
  dedupFirst (st.streamingEvents.map (fun e =>
    if truthy e.content then extractSourcesFromContent (e.content.getD "") else [])).flatten

def expectedStages : List String :=
  ["clarification", "research_brief", "research_execution", "final_report"]

def insertStage (acc : List String) (s : String) : List String :=
  if acc.contains s then acc else acc ++ [s]

/-- The `completedStages` set of `calculateProgress` as an insertion-ordered
deduplicated list. -/
def completedStagesOf (events : List StreamingEvent) : List String :=
  events.foldl
    (fun acc e =>
      let acc := if truthy e.stage then insertStage acc (e.stage.getD "") else acc
      let acc := if e.node_name == some "clarify_with_user" then insertStage acc "clarification" else acc
      let acc := if e.node_name == some "write_research_brief" then insertStage acc "research_brief" else acc
      let acc := if e.node_name == some "research_supervisor" then insertStage acc "research_execution" else acc
      if e.node_name == some "final_report_generation" then insertStage acc "final_report" else acc)
    []

/-- `calculateProgress`: `(completedStages.size / expectedStages.length) * 100`
(exactly `size * 25`, since the float division by 4 is exact) clamped below
by the literal 10. -/
def calculateProgress (events : List StreamingEvent) : Nat :=
  max 10 ((completedStagesOf events).length * 25)

/-- The progress value as displayed: `Math.min(Math.round(calculateProgress()), 100)`
(`Math.round` is the identity on these integral values). -/
def displayedProgress (events : List StreamingEvent) : Nat :=
  min (calculateProgress events) 100

/-! ### The V2 `ResearchInterface` reducer

The alternate `ResearchInterface.tsx` kept in the repository.  Its
`research_complete` branch reads the component-level `streamingEvents`
variable directly (not through a `prev => ...` updater): inside the stream
loop that `const` binding still holds the value captured when `handleSubmit`
was created, so the branch sees the render-time snapshot, modelled by the
constant `snapshot` field.  All other cells are written through updater
functions (or are write-only) and therefore behave sequentially.  The
session's single mutated `assistantMessage` is modelled by the
`assistantContent`/`assistantSources` fields. -/

structure V2State where
  snapshot : List StreamingEvent
  streamingEvents : List StreamingEvent
  apiCallLogs : List String
  currentStage : String
  finalReportContent : String
  researchSources : List String
  assistantContent : String
  assistantSources : List String
  isTyping : Bool
  currentTypingStage : String

/-- V2 state right after submission reset the session (the closure snapshot
`snap` is whatever `streamingEvents` held at the render that created the
handler). -/
def initV2 (snap : List StreamingEvent) : V2State :=
  { snapshot := snap
    streamingEvents := []
    apiCallLogs := []
    currentStage := ""
    finalReportContent := ""
    researchSources := []
    assistantContent := ""
    assistantSources := []
    isTyping := false
    currentTypingStage := "" }

/-- The type dispatch of the V2 stream loop body.  The `api_call` log
timestamp (`new Date(eventData.timestamp).toLocaleTimeString()`) is modelled
by the raw timestamp string; a missing field interpolates as `undefined`. -/
def dispatchV2 (st : V2State) (e : StreamingEvent) : V2State :=
  if e.type == some "stage_start" || e.type == some "stage_update" then
    if truthy e.content then
      { st with currentStage := e.stage.getD ""
              , streamingEvents := st.streamingEvents ++ [e] }
    else { st with currentStage := e.stage.getD "" }
  else if e.type == some "api_call" then
    { st with
        apiCallLogs := st.apiCallLogs ++
          ["[" ++ e.timestamp.getD "undefined" ++ "] 🔗 " ++ e.content.getD "undefined"]
        streamingEvents := st.streamingEvents ++ [e] }
  else if e.type == some "research_step" then
    { st with streamingEvents := st.streamingEvents ++ [e] }
  else if e.type == some "research_complete" then
    match getLastCh st.snapshot with
    | some lastEvent =>
      if truthy lastEvent.content then
        { st with finalReportContent := lastEvent.content.getD ""
                , researchSources := extractSourcesSimple (lastEvent.content.getD "")
                , assistantContent := lastEvent.content.getD ""
                , assistantSources := extractSourcesSimple (lastEvent.content.getD "") }
      else st
    | none => st
  else if e.type == some "error" then
    { st with streamingEvents := st.streamingEvents ++ [e] }
  else st

/-- The typing-indicator update at the end of the V2 loop body. -/
def typingV2 (st : V2State) (e : StreamingEvent) : V2State :=
  if truthy e.stage then
    { st with isTyping := true, currentTypingStage := e.stage.getD "" }
  else st

/-- One parsed event of the V2 stream loop. -/
def stepV2 (st : V2State) (e : StreamingEvent) : V2State :=
  typingV2 (dispatchV2 st e) e

def foldV2 (st : V2State) (events : List StreamingEvent) : V2State :=
  events.foldl stepV2 st

/-! ### The multi-model comparison runner -/

inductive StageBucket where
  | clarification : StageBucket
  | research_brief : StageBucket
  | research_execution : StageBucket
  | final_report : StageBucket
deriving DecidableEq

/-- `normalizeStage`: lower-case the stage and bucket it by the `clar` /
`brief` / `final` infix tests, defaulting to research execution. -/
def normalizeStage (stage : Option String) : StageBucket :=
  let s : String := ⟨(stage.getD "").toList.map asciiLower⟩
  if jsIncludes s "clar" then StageBucket.clarification
  else if jsIncludes s "brief" then StageBucket.research_brief
  else if jsIncludes s "final" then StageBucket.final_report
  else StageBucket.research_execution

/-- Per-stage accumulated seconds.  JS floating-point seconds are modelled as
exact rationals (the code only adds and divides by 1000). -/
structure StageTimings where
  clarification : ℚ := 0
  research_brief : ℚ := 0
  research_execution : ℚ := 0
  final_report : ℚ := 0
deriving DecidableEq

def addTiming (t : StageTimings) (b : StageBucket) (d : ℚ) : StageTimings :=
  match b with
  | StageBucket.clarification => { t with clarification := t.clarification + d }
  | StageBucket.research_brief => { t with research_brief := t.research_brief + d }
  | StageBucket.research_execution => { t with research_execution := t.research_execution + d }
  | StageBucket.final_report => { t with final_report := t.final_report + d }

/-- `Array.isArray(evt?.metadata?.sources) ? sources.length : 1`. -/
def sourcesFoundCount (e : StreamingEvent) : Nat :=
  match e.metadata with
  | some (JValue.jobj fs) =>
    match fs.lookup "sources" with
    | some (JValue.jarr l) => l.length
    | _ => 1
  | _ => 1

/-- The task-local accumulator of one model's stream task. -/
structure CmpAccum where
  totalContent : String
  activeStage : StageBucket
  stageStart : ℚ
  stageTimings : StageTimings
  sourceCount : Nat

/-- `totalContent.split(/\s+/).filter(Boolean).length`: the number of maximal
non-whitespace runs. -/
def countWords (s : String) : Nat :=
  (s.toList.foldl
    (fun p c =>
      if isWsChar c then (p.1, false)
      else (p.1 + (if p.2 then 0 else 1), true))
    ((0 : Nat), false)).1

/-- One line of one model's stream: the `data: ` guard, the per-line
try/catch around `JSON.parse` (a malformed line is skipped), stage-timing
bookkeeping, `sources_found` counting and content accumulation.  `now` is the
`Date.now()` value (milliseconds) at which the line is handled.  The shared
`setCurrentRunProgress` display map is not part of any result and is not
modelled. -/
def processCmpLine (acc : CmpAccum) (ln : String × ℚ) : CmpAccum :=
  let line := ln.1
  let now := ln.2
  if !startsWithLit line "data: " then acc
  else
    match jsonParse (line.drop 6) with
    | none => acc
    | some v =>
      let evt := rawEventOfJValue v
      let acc :=
        if truthy evt.stage then
          let nextStage := normalizeStage evt.stage
          if nextStage != acc.activeStage then
            { acc with
                stageTimings := addTiming acc.stageTimings acc.activeStage ((now - acc.stageStart) / 1000)
                activeStage := nextStage
                stageStart := now }
          else acc
        else acc
      let acc :=
        if evt.type == some "sources_found" then
          { acc with sourceCount := acc.sourceCount + sourcesFoundCount evt }
        else acc
      if truthy evt.content then
        { acc with totalContent := acc.totalContent ++ "\n" ++ evt.content.getD "" }
      else acc

/-- Everything one model's task depends on: its own stream lines with their
arrival clock values, the task's start and end clock values, and whether the
transport threw (`failure`).  The thrown message is delivered after the lines
already read, matching a mid-stream or pre-stream failure. -/
structure ModelRunInput where
  lines : List (String × ℚ)
  startTime : ℚ
  endTime : ℚ
  failure : Option String
deriving DecidableEq

/-- One per-model entry of the merged `MultiModelRun.results`. -/
structure CmpResult where
  model : String
  duration : ℚ
  stageTimings : StageTimings
  sourceCount : Nat
  wordCount : Nat
  success : Bool
  error : Option String
deriving DecidableEq

/-- One model's task of `runMultiModelComparison`, merged with the
`results.map` post-processing: fold the lines, close the active stage at the
end clock, report duration, word count of the accumulated content, source
count, and `success: !r.error`.  The success and failure exits of the task
close the stage and compute the duration identically (the two adjacent
`Date.now()` calls of the success path are modelled as one clock value). -/
def runModel (model : String) (inp : ModelRunInput) : CmpResult :=
  let acc := inp.lines.foldl processCmpLine
    { totalContent := ""
      activeStage := StageBucket.clarification
      stageStart := inp.startTime
      stageTimings := {}
      sourceCount := 0 }
  { model := model
    duration := (inp.endTime - inp.startTime) / 1000
    stageTimings := addTiming acc.stageTimings acc.activeStage ((inp.endTime - acc.stageStart) / 1000)
    sourceCount := acc.sourceCount
    wordCount := countWords acc.totalContent
    success := inp.failure.isNone
    error := inp.failure }

/-- `runMultiModelComparison`: one independent task per selected model (each
with its own abort controller, reader and task-local accumulator; the only
shared reads are the constant query and API key), awaited by `Promise.all`,
which preserves the per-model order. -/
def runMultiModelComparison (inputs : List (String × ModelRunInput)) : List CmpResult :=
  inputs.map fun mi => runModel mi.1 mi.2

/-! ## Helper lemmas -/

theorem hasPrefixCh_refl (l : List Char) : hasPrefixCh l l = true := by
  induction l with
  | nil => rfl
  | cons c t ih => simp [hasPrefixCh, ih]

theorem hasPrefixCh_append_self (l t : List Char) : hasPrefixCh l (l ++ t) = true := by
  induction l with
  | nil => rfl
  | cons c r ih => simp [hasPrefixCh, ih]

theorem containsCh_append_right (p m : List Char) : containsCh (p ++ m) m = true := by
  induction p with
  | nil =>
    cases m with
    | nil => rfl
    | cons c t => simp [containsCh, hasPrefixCh_refl]
  | cons a p ih => simp [containsCh, ih]

theorem containsCh_append_left (s t n : List Char) (h : containsCh t n = true) :
    containsCh (s ++ t) n = true := by
  induction s with
  | nil => simpa using h
  | cons a s ih => simp [containsCh, ih]

theorem containsCh_nil_needle (hay : List Char) : containsCh hay [] = true := by
  cases hay <;> simp [containsCh, hasPrefixCh]

theorem containsCh_self_append (m t : List Char) : containsCh (m ++ t) m = true := by
  cases m with
  | nil => exact containsCh_nil_needle t
  | cons c r =>
    simp only [List.cons_append, containsCh, Bool.or_eq_true]
    exact Or.inl (by simpa using hasPrefixCh_append_self (c :: r) t)

theorem containsCh_cons_of_ne (a : Char) (ns : List Char) (b : Char) (hay : List Char)
    (h : (a == b) = false) :
    containsCh (b :: hay) (a :: ns) = containsCh hay (a :: ns) := by
  simp [containsCh, hasPrefixCh, h]

theorem logPhase_messages (st : RState) (e : StreamingEvent) :
    (logPhase st e).messages = st.messages := by
  unfold logPhase; split_ifs <;> rfl

theorem logPhase_streamingEvents (st : RState) (e : StreamingEvent) :
    (logPhase st e).streamingEvents = st.streamingEvents := by
  unfold logPhase; split_ifs <;> rfl

theorem logPhase_now (st : RState) (e : StreamingEvent) : (logPhase st e).now = st.now := by
  unfold logPhase; split_ifs <;> rfl

theorem stagePhase_messages (st : RState) (e : StreamingEvent) :
    (stagePhase st e).messages = st.messages := by
  unfold stagePhase; split_ifs <;> rfl

theorem stagePhase_streamingEvents (st : RState) (e : StreamingEvent) :
    (stagePhase st e).streamingEvents = st.streamingEvents := by
  unfold stagePhase; split_ifs <;> rfl

theorem stagePhase_now (st : RState) (e : StreamingEvent) : (stagePhase st e).now = st.now := by
  unfold stagePhase; split_ifs <;> rfl

theorem completePhase_streamingEvents (st : RState) (e : StreamingEvent) :
    (completePhase st e).streamingEvents = st.streamingEvents ++ [e] := by
  unfold completePhase; split_ifs <;> rfl

theorem completePhase_now (st : RState) (e : StreamingEvent) :
    (completePhase st e).now = st.now := by
  unfold completePhase; split_ifs <;> rfl

theorem completePhase_messages_ne (st : RState) (e : StreamingEvent)
    (h : e.type ≠ some "research_complete") :
    (completePhase st e).messages = st.messages := by
  unfold completePhase
  rw [if_neg (by simpa using h)]

theorem completePhase_of_rc (st : RState) (e : StreamingEvent)
    (h : e.type = some "research_complete") :
    completePhase st e =
      { st with
          isStreaming := false
          streamingEvents := st.streamingEvents ++ [e]
          messages := st.messages.map (sysFinalize e) ++
            [finalReportMessage (st.streamingEvents ++ [e])] } := by
  unfold completePhase
  rw [if_pos (by simpa using h)]

theorem errorPhase_of_ne (st : RState) (e : StreamingEvent) (h : e.type ≠ some "error") :
    errorPhase st e = st := by
  unfold errorPhase
  rw [if_neg (by simpa using h)]

theorem errorPhase_of_error (st : RState) (e : StreamingEvent) (h : e.type = some "error") :
    errorPhase st e =
      { st with isStreaming := false, isTyping := false
              , messages := st.messages.map (sysErrorize e) } := by
  unfold errorPhase
  rw [if_pos (by simpa using h)]

theorem errorPhase_streamingEvents (st : RState) (e : StreamingEvent) :
    (errorPhase st e).streamingEvents = st.streamingEvents := by
  unfold errorPhase; split_ifs <;> rfl

theorem errorPhase_now (st : RState) (e : StreamingEvent) :
    (errorPhase st e).now = st.now := by
  unfold errorPhase; split_ifs <;> rfl

theorem sysFinalize_mtype (e : StreamingEvent) (m : Message) :
    (sysFinalize e m).mtype = m.mtype := by
  unfold sysFinalize; split_ifs <;> rfl

theorem sysErrorize_mtype (e : StreamingEvent) (m : Message) :
    (sysErrorize e m).mtype = m.mtype := by
  unfold sysErrorize; split_ifs <;> rfl

theorem processEvent_now (st : RState) (e : StreamingEvent) :
    (processEvent st e).now = st.now := by
  unfold processEvent
  rw [errorPhase_now, completePhase_now, stagePhase_now, logPhase_now]

theorem processEvent_streamingEvents (st : RState) (e : StreamingEvent) :
    (processEvent st e).streamingEvents = st.streamingEvents ++ [e] := by
  unfold processEvent
  rw [errorPhase_streamingEvents, completePhase_streamingEvents, stagePhase_streamingEvents,
    logPhase_streamingEvents]

theorem foldProcess_streamingEvents (st : RState) (es : List StreamingEvent) :
    (es.foldl processEvent st).streamingEvents = st.streamingEvents ++ es := by
  induction es generalizing st with
  | nil => simp
  | cons e rest ih => simp [List.foldl_cons, ih, processEvent_streamingEvents]

/-- No assistant message is present (holds until the first completion). -/
def noAssistant (msgs : List Message) : Prop :=
  ∀ m ∈ msgs, m.mtype ≠ MsgType.assistant

theorem noAssistant_map_sysErrorize (e : StreamingEvent) (msgs : List Message)
    (h : noAssistant msgs) : noAssistant (msgs.map (sysErrorize e)) := by
  intro m hm
  obtain ⟨m₀, hm₀, rfl⟩ := List.mem_map.mp hm
  rw [sysErrorize_mtype]
  exact h m₀ hm₀

theorem noAssistant_map_sysFinalize (e : StreamingEvent) (msgs : List Message)
    (h : noAssistant msgs) : noAssistant (msgs.map (sysFinalize e)) := by
  intro m hm
  obtain ⟨m₀, hm₀, rfl⟩ := List.mem_map.mp hm
  rw [sysFinalize_mtype]
  exact h m₀ hm₀

theorem processEvent_noAssistant (st : RState) (e : StreamingEvent)
    (hne : e.type ≠ some "research_complete") (h : noAssistant st.messages) :
    noAssistant (processEvent st e).messages := by
  unfold processEvent
  by_cases herr : e.type = some "error"
  · rw [errorPhase_of_error _ _ herr]
    dsimp only
    apply noAssistant_map_sysErrorize
    rw [completePhase_messages_ne _ _ hne, stagePhase_messages, logPhase_messages]
    exact h
  · rw [errorPhase_of_ne _ _ herr, completePhase_messages_ne _ _ hne, stagePhase_messages,
      logPhase_messages]
    exact h

theorem foldProcess_noAssistant (st : RState) (es : List StreamingEvent)
    (hes : ∀ e ∈ es, e.type ≠ some "research_complete") (h : noAssistant st.messages) :
    noAssistant ((es.foldl processEvent st).messages) := by
  induction es generalizing st with
  | nil => simpa using h
  | cons e rest ih =>
    rw [List.foldl_cons]
    exact ih _ (fun x hx => hes x (List.mem_cons_of_mem _ hx))
      (processEvent_noAssistant _ _ (hes e (List.mem_cons_self _ _)) h)

theorem filter_assistant_eq_nil (msgs : List Message) (h : noAssistant msgs) :
    msgs.filter (fun m => m.mtype == MsgType.assistant) = [] := by
  refine List.filter_eq_nil_iff.mpr fun a ha => ?_
  simpa using h a ha

theorem processEvent_rc_lastAssistant (st : RState) (e : StreamingEvent)
    (hrc : e.type = some "research_complete") (h : noAssistant st.messages) :
    lastAssistantContent (processEvent st e) =
      some (selectFinalReportContent (st.streamingEvents ++ [e])) := by
  unfold processEvent
  have herr : e.type ≠ some "error" := by rw [hrc]; simp
  rw [errorPhase_of_ne _ _ herr, completePhase_of_rc _ _ hrc]
  unfold lastAssistantContent
  dsimp only
  rw [stagePhase_streamingEvents, logPhase_streamingEvents, stagePhase_messages, logPhase_messages,
    List.filter_append, filter_assistant_eq_nil _ (noAssistant_map_sysFinalize e _ h)]
  simp [finalReportMessage]

theorem lastAssistant_after_stream (q mn t : String) (L : List StreamingEvent) (rc : StreamingEvent)
    (hL : ∀ e ∈ L, e.type ≠ some "research_complete")
    (hrc : rc.type = some "research_complete") :
    lastAssistantContent ((L ++ [rc]).foldl processEvent (initState q mn t)) =
      some (selectFinalReportContent (L ++ [rc])) := by
  rw [List.foldl_append, List.foldl_cons, List.foldl_nil]
  have hinit : noAssistant (initState q mn t).messages := by
    intro m hm
    simp only [initState, List.mem_cons, List.mem_singleton] at hm
    rcases hm with rfl | rfl | h
    · exact fun hcon => MsgType.noConfusion hcon
    · exact fun hcon => MsgType.noConfusion hcon
    · cases h
  have hna := foldProcess_noAssistant _ _ hL hinit
  rw [processEvent_rc_lastAssistant _ _ hrc hna, foldProcess_streamingEvents]
  simp [initState]

theorem selectFinal_of_no_candidates (evs : List StreamingEvent)
    (h : ∀ e ∈ evs, isReportCandidate e = false) :
    selectFinalReportContent evs = fallbackReport := by
  unfold selectFinalReportContent
  rw [List.filter_eq_nil_iff.mpr (by intro a ha; simp [h a ha])]
  rfl

theorem selectFinal_unique (pre post : List StreamingEvent) (eA : StreamingEvent) (A : String)
    (hpre : ∀ e ∈ pre, isReportCandidate e = false)
    (hpost : ∀ e ∈ post, isReportCandidate e = false)
    (hcand : isReportCandidate eA = true)
    (hAc : eA.content = some A)
    (hpat : reportPatternResult A = none)
    (hlen : 100 < A.length)
    (hsrc : extractSourcesFromContent A = []) :
    selectFinalReportContent (pre ++ eA :: post) = A := by
  have hfil : (pre ++ eA :: post).filter isReportCandidate = [eA] := by
    rw [List.filter_append, List.filter_eq_nil_iff.mpr (by intro a ha; simp [hpre a ha]),
      List.filter_cons, if_pos hcand, List.filter_eq_nil_iff.mpr (by intro a ha; simp [hpost a ha])]
    simp
  have hlast : getLastCh [eA] = some eA := rfl
  simp only [selectFinalReportContent, hfil, hlast, hAc, Option.getD_some, hpat,
    if_pos (decide_eq_true hlen), hsrc]
  simp

/-! ## Claims -/

/-- Claim C7: cancelling a session mid-stream (the Stop button aborting the
fetch, whose pending read then rejects with an `AbortError` handled by the
catch block) leaves every already-folded piece of state — transcript
messages, streaming-event list, accumulated logs, current stage — exactly
unchanged, ends streaming, and produces no error message (the messages are
untouched, unlike the non-abort catch branch which rewrites the system
message). -/
theorem c7_abort_frame (st : RState) :
    (abortSession st).messages = st.messages ∧
    (abortSession st).streamingEvents = st.streamingEvents ∧
    (abortSession st).apiCallLogs = st.apiCallLogs ∧
    (abortSession st).currentStage = st.currentStage ∧
    (abortSession st).isStreaming = false :=
  ⟨rfl, rfl, rfl, rfl, rfl⟩

/-- Claim C10 counterexample: `calculateProgress` counts every distinct stage
string, not only the four expected stages, so five distinct stages (here the
four expected ones plus `research_planning`, a stage name the component
itself recognises) drive the raw value to 125, above 100. -/
theorem c10_progress_counterexample :
    ¬ calculateProgress
        [ { stage := some "clarification" }, { stage := some "research_brief" }
        , { stage := some "research_execution" }, { stage := some "final_report" }
        , { stage := some "research_planning" } ] ≤ 100 := by
  decide

/-- Claim C10 (amended): `calculateProgress` always returns at least 10, and
the value actually displayed, `Math.min(Math.round(calculateProgress()), 100)`,
lies in `[10, 100]`; the raw value itself can exceed 100 because stages
outside the four expected ones are also counted. -/
theorem c10_progress_bounds (events : List StreamingEvent) :
    10 ≤ calculateProgress events ∧
    10 ≤ displayedProgress events ∧ displayedProgress events ≤ 100 := by
  unfold displayedProgress calculateProgress
  exact ⟨Nat.le_max_left _ _, le_min (Nat.le_max_left _ _) (by norm_num), Nat.min_le_right _ _⟩

/-- Claim C9: after 51 consecutive content-bearing `api_call` events the log
buffer holds 51 entries — `[...prev.slice(-50), logEntry]` keeps the last 50
*and then appends*, so the buffer stabilises at 51 entries, one above the
"Keep last 50 logs" cap stated by the code's own comment (it is still a
bounded ring buffer with the oldest entry evicted first, but its bound is
51). -/
theorem c9_log_buffer_off_by_one :
    ((List.replicate 51 ({ type := some "api_call", content := some "call" } : StreamingEvent)).foldl
        processEvent (initState "q" "anthropic" "t")).apiCallLogs.length = 51 := by
  decide

/-- Claim C4: the per-line loop is exactly a fold of the step function over
the events of the lines that pass the `data: ` guard and parse as JSON: every
well-formed line's event is folded in order, every malformed line is dropped
(the per-line catch only logs) and processing continues; the loop is a total
function, so no exception escapes. -/
theorem c4_parse_guard_filterMap (st : RState) (lines : List String) :
    processLines st lines = (lines.filterMap (parseDataLine st.now)).foldl processEvent st := by
  induction lines generalizing st with
  | nil => rfl
  | cons l rest ih =>
    simp only [processLines, List.filterMap_cons]
    cases h : parseDataLine st.now l with
    | none => simp [ih st]
    | some e =>
      simp only [List.foldl_cons]
      rw [ih (processEvent st e), processEvent_now]

/-- Claim C3: when no event of the session is a final-report candidate (no
event carries `node_name === 'final_report_generation'` with content) and the
terminal `research_complete` event itself carries no content, the selected
final report is exactly the literal fallback string
`"Research completed successfully!"`. -/
theorem c3_fallback_when_no_candidates (q mn t : String) (events : List StreamingEvent)
    (rc : StreamingEvent)
    (hnc : ∀ e ∈ events, isReportCandidate e = false)
    (hnorc : ∀ e ∈ events, e.type ≠ some "research_complete")
    (hrcT : rc.type = some "research_complete")
    (hrcC : rc.content = none) :
    lastAssistantContent ((events ++ [rc]).foldl processEvent (initState q mn t)) =
      some fallbackReport := by
  rw [lastAssistant_after_stream q mn t events rc hnorc hrcT]
  rw [selectFinal_of_no_candidates]
  intro e he
  rcases List.mem_append.mp he with h | h
  · exact hnc e h
  · rw [List.mem_singleton] at h
    subst h
    simp [isReportCandidate, hrcC, truthy]

/-- Claim C3 witness: the empty session terminated by a bare
`research_complete` event selects the fallback string. -/
theorem c3_fallback_when_no_candidates_witness :
    lastAssistantContent ((([] : List StreamingEvent) ++
        [({ type := some "research_complete" } : StreamingEvent)]).foldl processEvent
          (initState "q" "anthropic" "t")) = some fallbackReport :=
  c3_fallback_when_no_candidates "q" "anthropic" "t" []
    ({ type := some "research_complete" } : StreamingEvent)
    (fun _ he => nomatch he) (fun _ he => nomatch he) rfl rfl

/-- A 120-character content block containing no URLs, no source mentions and
no report markers. -/
def sampleReportA : String := String.mk (List.replicate 120 'a')

/-- A long final-report event identified the way the code identifies them: by
`node_name === 'final_report_generation'`. -/
def sampleNodeEvent : StreamingEvent :=
  { type := some "node_update", node_name := some "final_report_generation"
  , content := some sampleReportA }

/-- An event whose `stage` field says `final_report` but which carries no
`final_report_generation` node name. -/
def sampleStageEvent : StreamingEvent :=
  { type := some "stage_update", stage := some "final_report", content := some sampleReportA }

/-- A later generic long-content event (150 characters). -/
def sampleLongEvent : StreamingEvent :=
  { type := some "research_step", content := some (String.mk (List.replicate 150 'b')) }

def sampleCompleteEvent : StreamingEvent := { type := some "research_complete" }

/-- Claim C1 counterexample: an event carrying `stage: "final_report"` with a
120-character content (well above every threshold) is *not* selected as the
final report — the selection filters on `node_name === 'final_report_generation'`
and ignores the `stage` field, so this session falls through to the fallback
string instead of content `A`. -/
theorem c1_stage_event_not_selected :
    lastAssistantContent
        ([sampleStageEvent, sampleLongEvent, sampleCompleteEvent].foldl processEvent
          (initState "q" "anthropic" "t")) ≠ some sampleReportA := by
  decide

/-- Claim C1 (amended): for a session whose only final-report candidate —
an event with `node_name === 'final_report_generation'` and content `A` — has
`A` longer than the 100-character threshold (with no report-marker pattern
inside `A` and no extracted sources, so the content is used verbatim), the
report selected when the terminal `research_complete` event is processed is
exactly `A`: later generic long-content events are never candidates and
cannot overwrite it. -/
theorem c1_final_report_priority (q mn t A : String) (pre post : List StreamingEvent)
    (eA rc : StreamingEvent)
    (hAnode : eA.node_name = some "final_report_generation")
    (hAc : eA.content = some A)
    (hlen : 100 < A.length)
    (hpat : reportPatternResult A = none)
    (hsrc : extractSourcesFromContent A = [])
    (hpre : ∀ e ∈ pre, isReportCandidate e = false)
    (hpost : ∀ e ∈ post, isReportCandidate e = false)
    (hrcCand : isReportCandidate rc = false)
    (hrcT : rc.type = some "research_complete")
    (hnorc : ∀ e ∈ pre ++ eA :: post, e.type ≠ some "research_complete") :
    lastAssistantContent (((pre ++ eA :: post) ++ [rc]).foldl processEvent (initState q mn t)) =
      some A := by
  have hne : A ≠ "" := by
    intro hA
    rw [hA] at hlen
    exact absurd hlen (by decide)
  have hie : A.isEmpty = false := by
    cases h : A.isEmpty
    · rfl
    · exact absurd ((String.isEmpty_iff A).mp h) hne
  have hcand : isReportCandidate eA = true := by
    simp [isReportCandidate, truthy, hAnode, hAc, hie]
  rw [lastAssistant_after_stream q mn t _ rc hnorc hrcT]
  have hassoc : (pre ++ eA :: post) ++ [rc] = pre ++ eA :: (post ++ [rc]) := by simp
  rw [hassoc, selectFinal_unique pre (post ++ [rc]) eA A hpre ?hpost hcand hAc hpat hlen hsrc]
  case hpost =>
    intro e he
    rcases List.mem_append.mp he with h | h
    · exact hpost e h
    · rw [List.mem_singleton] at h
      subst h
      exact hrcCand

/-- Claim C1 witness: a concrete session — one `final_report_generation` node
event with the 120-character content, followed by a 150-character generic
event and the terminal `research_complete` — selects the node event's
content. -/
theorem c1_final_report_priority_witness :
    lastAssistantContent ((([] ++ sampleNodeEvent :: [sampleLongEvent]) ++
        [sampleCompleteEvent]).foldl processEvent (initState "q" "anthropic" "t")) =
      some sampleReportA :=
  c1_final_report_priority "q" "anthropic" "t" sampleReportA [] [sampleLongEvent]
    sampleNodeEvent sampleCompleteEvent rfl rfl (by decide) (by decide) (by decide)
    (fun _ he => nomatch he) (by decide) (by decide) rfl (by decide)

/-- The example input stream of the specification, as one decoded chunk. -/
def c2chunk : String :=
  "data: \x7b\"type\":\"stage_start\",\"stage\":\"clarification\"\x7d\n" ++
  "data: \x7b\"type\":\"research_step\",\"content\":\"Found paper at https://example.com/x\"\x7d\n" ++
  "data: \x7b\"type\":\"research_complete\",\"content\":\"Done.\"\x7d\n"

/-- The reducer state after feeding the example stream to a fresh session. -/
def c2state : RState :=
  processChunks (initState "What is quantum computing?" "anthropic" "t0") [c2chunk]

/-- Claim C2 counterexample: on the spec's example stream the final report is
*not* `"Done."` — the `research_complete` event's own content is never used
by the selection (only `final_report_generation` node events are candidates),
so the session ends with the fallback string instead. -/
theorem c2_done_not_selected : lastAssistantContent c2state ≠ some "Done." := by
  decide

/-- Claim C2 (amended): on the example stream the resulting state has current
stage `clarification`, source set `{"https://example.com/x"}` and ends with
streaming off (session completed), but the selected final report is the
literal fallback string, not the `research_complete` event's content. -/
theorem c2_example_stream_behaviour :
    c2state.currentStage = "clarification" ∧
    sessionSources c2state = ["https://example.com/x"] ∧
    lastAssistantContent c2state = some fallbackReport ∧
    c2state.isStreaming = false := by
  decide

theorem toList_append (s t : String) : (s ++ t).toList = s.toList ++ t.toList :=
  String.data_append s t

theorem jsIncludes_append_self (s t : String) : jsIncludes (s ++ t) s = true := by
  unfold jsIncludes
  rw [toList_append]
  exact containsCh_self_append _ _

theorem jsIncludes_append_right (p m : String) : jsIncludes (p ++ m) m = true := by
  unfold jsIncludes
  rw [toList_append]
  exact containsCh_append_right _ _

theorem jsIncludes_append_of_right (s t sub : String) (h : jsIncludes t sub = true) :
    jsIncludes (s ++ t) sub = true := by
  unfold jsIncludes at h ⊢
  rw [toList_append]
  exact containsCh_append_left _ _ _ h

/-- Prepending the literal `"Error: "` cannot create an occurrence of the
annotation string (no non-empty suffix of `"Error: "` is a prefix of the
annotation, which starts with `T`). -/
theorem includes_ann_after_error_label (msg : String) :
    jsIncludes ("Error: " ++ msg) "This might be temporary" =
      jsIncludes msg "This might be temporary" := by
  unfold jsIncludes
  rw [toList_append]
  rw [show "Error: ".toList = ['E', 'r', 'r', 'o', 'r', ':', ' '] from rfl,
    show "This might be temporary".toList = 'T' :: "his might be temporary".toList from rfl]
  simp only [List.cons_append, List.nil_append]
  rw [containsCh_cons_of_ne _ _ _ _ (by decide), containsCh_cons_of_ne _ _ _ _ (by decide),
    containsCh_cons_of_ne _ _ _ _ (by decide), containsCh_cons_of_ne _ _ _ _ (by decide),
    containsCh_cons_of_ne _ _ _ _ (by decide), containsCh_cons_of_ne _ _ _ _ (by decide),
    containsCh_cons_of_ne _ _ _ _ (by decide)]

theorem sysErrorize_id (e : StreamingEvent) (m : Message) :
    (sysErrorize e m).id = m.id := by
  unfold sysErrorize; split_ifs <;> rfl

/-- Claim C6 (amended): processing an application-level `error` event ends the
session (streaming and typing stop — a terminal failed state; the fold issues
no retry) and rewrites the system message so that it surfaces the error
message, carrying the "might be temporary" annotation exactly when the message
contains one of the three recognised substrings `"500"`, `"rate limit"`,
`"timeout"` (the literal `500` check — not any 5xx status). -/
theorem c6_error_event_amended (st : RState) (e : StreamingEvent)
    (he : e.type = some "error")
    (hm : jsIncludes (errMsgOf e) "This might be temporary" = false) :
    (processEvent st e).isStreaming = false ∧
    (processEvent st e).isTyping = false ∧
    ∀ m ∈ (processEvent st e).messages, m.id = systemMessageId →
      (jsIncludes m.content (errMsgOf e) = true ∧
       (jsIncludes m.content "This might be temporary" = true ↔
         (jsIncludes (errMsgOf e) "500" = true ∨ jsIncludes (errMsgOf e) "rate limit" = true ∨
          jsIncludes (errMsgOf e) "timeout" = true))) := by
  unfold processEvent
  rw [errorPhase_of_error _ _ he]
  refine ⟨rfl, rfl, ?_⟩
  intro m hm' hid
  dsimp only at hm'
  obtain ⟨m₀, hm₀, rfl⟩ := List.mem_map.mp hm'
  by_cases hcase : (m₀.id == systemMessageId) = true
  · have hcontent : (sysErrorize e m₀).content = errorDisplayMessage (errMsgOf e) := by
      unfold sysErrorize
      rw [if_pos hcase]
    rw [hcontent]
    unfold errorDisplayMessage
    by_cases hr : isRetryableError (errMsgOf e) = true
    · rw [if_pos hr]
      have hr' := hr
      unfold isRetryableError at hr'
      simp only [Bool.or_eq_true] at hr'
      constructor
      · exact jsIncludes_append_self _ _
      · constructor
        · intro _
          tauto
        · intro _
          exact jsIncludes_append_of_right _ _ _ (by decide)
    · rw [if_neg hr]
      have hr' : isRetryableError (errMsgOf e) = false := by
        cases h : isRetryableError (errMsgOf e)
        · rfl
        · exact absurd h hr
      unfold isRetryableError at hr'
      simp only [Bool.or_eq_false_iff] at hr'
      constructor
      · exact jsIncludes_append_right _ _
      · rw [includes_ann_after_error_label, hm]
        obtain ⟨⟨h1, h2⟩, h3⟩ := hr'
        constructor
        · intro h
          cases h
        · intro h
          rcases h with h | h | h
          · rw [h1] at h
            cases h
          · rw [h2] at h
            cases h
          · rw [h3] at h
            cases h
  · exfalso
    rw [sysErrorize_id] at hid
    rw [hid] at hcase
    simp at hcase

def rateLimitErrorEvent : StreamingEvent :=
  { type := some "error", error := some "rate limit exceeded" }

/-- Claim C6 witness: a concrete `error` event whose message mentions a rate
limit, processed from the fresh session state. -/
theorem c6_error_event_amended_witness :
    (processEvent (initState "q" "anthropic" "t") rateLimitErrorEvent).isStreaming = false ∧
    (processEvent (initState "q" "anthropic" "t") rateLimitErrorEvent).isTyping = false ∧
    ∀ m ∈ (processEvent (initState "q" "anthropic" "t") rateLimitErrorEvent).messages,
      m.id = systemMessageId →
      (jsIncludes m.content (errMsgOf rateLimitErrorEvent) = true ∧
       (jsIncludes m.content "This might be temporary" = true ↔
         (jsIncludes (errMsgOf rateLimitErrorEvent) "500" = true ∨
          jsIncludes (errMsgOf rateLimitErrorEvent) "rate limit" = true ∨
          jsIncludes (errMsgOf rateLimitErrorEvent) "timeout" = true))) :=
  c6_error_event_amended (initState "q" "anthropic" "t") rateLimitErrorEvent rfl (by decide)

def error503Event : StreamingEvent :=
  { type := some "error", error := some "HTTP error! status: 503" }

/-- Claim C6 counterexample: an error message reporting HTTP status 503 — a
5xx status — receives no "might be temporary" annotation, because the code
only looks for the literal substring `500` (plus `rate limit` / `timeout`),
not for arbitrary 5xx statuses. -/
theorem c6_5xx_not_annotated :
    jsIncludes (errMsgOf error503Event) "503" = true ∧
    ∀ m ∈ (processEvent (initState "q" "anthropic" "t") error503Event).messages,
      jsIncludes m.content "This might be temporary" = false := by
  decide

/-- The source set the V2 completion branch installs — fully determined by
the render-time snapshot. -/
def snapSources (snap : List StreamingEvent) : List String :=
  match getLastCh snap with
  | some le => if truthy le.content then extractSourcesSimple (le.content.getD "") else []
  | none => []

theorem typingV2_snapshot (st : V2State) (e : StreamingEvent) :
    (typingV2 st e).snapshot = st.snapshot := by
  unfold typingV2; split_ifs <;> rfl

theorem typingV2_researchSources (st : V2State) (e : StreamingEvent) :
    (typingV2 st e).researchSources = st.researchSources := by
  unfold typingV2; split_ifs <;> rfl

theorem dispatchV2_snapshot (st : V2State) (e : StreamingEvent) :
    (dispatchV2 st e).snapshot = st.snapshot := by
  unfold dispatchV2
  split_ifs <;> try rfl
  rcases hlast : getLastCh st.snapshot with _ | le <;> simp only [hlast]
  split_ifs <;> rfl

theorem dispatchV2_researchSources (st : V2State) (e : StreamingEvent) :
    (dispatchV2 st e).researchSources = st.researchSources ∨
      (dispatchV2 st e).researchSources = snapSources st.snapshot := by
  unfold dispatchV2
  split_ifs <;> try exact Or.inl rfl
  rcases hlast : getLastCh st.snapshot with _ | le
  · simp [hlast]
  · simp only [hlast]
    cases hc : truthy le.content
    · simp [hc]
    · right
      simp [snapSources, hlast, hc]

theorem stepV2_snapshot (st : V2State) (e : StreamingEvent) :
    (stepV2 st e).snapshot = st.snapshot := by
  unfold stepV2
  rw [typingV2_snapshot, dispatchV2_snapshot]

theorem stepV2_researchSources (st : V2State) (e : StreamingEvent) :
    (stepV2 st e).researchSources = st.researchSources ∨
      (stepV2 st e).researchSources = snapSources st.snapshot := by
  unfold stepV2
  rw [typingV2_researchSources]
  exact dispatchV2_researchSources st e

theorem foldV2_mono (st : V2State) (es : List StreamingEvent)
    (hinv : st.researchSources = [] ∨ st.researchSources = snapSources st.snapshot) :
    ((foldV2 st es).snapshot = st.snapshot) ∧
    ((foldV2 st es).researchSources = [] ∨
      (foldV2 st es).researchSources = snapSources st.snapshot) ∧
    st.researchSources ⊆ (foldV2 st es).researchSources ∧
    st.researchSources.length ≤ (foldV2 st es).researchSources.length := by
  induction es generalizing st with
  | nil => exact ⟨rfl, hinv, List.Subset.refl _, le_refl _⟩
  | cons e rest ih =>
    have hsnap := stepV2_snapshot st e
    have hrs := stepV2_researchSources st e
    have hinv' : (stepV2 st e).researchSources = [] ∨
        (stepV2 st e).researchSources = snapSources (stepV2 st e).snapshot := by
      rw [hsnap]
      rcases hrs with h | h
      · rw [h]; exact hinv
      · exact Or.inr h
    have hgrow : st.researchSources ⊆ (stepV2 st e).researchSources ∧
        st.researchSources.length ≤ (stepV2 st e).researchSources.length := by
      rcases hrs with h | h
      · rw [h]; exact ⟨List.Subset.refl _, le_refl _⟩
      · rcases hinv with h0 | h0
        · rw [h, h0]
          exact ⟨List.nil_subset _, by simp⟩
        · rw [h, h0]
          exact ⟨List.Subset.refl _, le_refl _⟩
    obtain ⟨ihsnap, ihinv, ihsub, ihlen⟩ := ih (stepV2 st e) hinv'
    refine ⟨?_, ?_, ?_, ?_⟩
    · show (foldV2 (stepV2 st e) rest).snapshot = st.snapshot
      rw [ihsnap, hsnap]
    · show (foldV2 (stepV2 st e) rest).researchSources = [] ∨
        (foldV2 (stepV2 st e) rest).researchSources = snapSources st.snapshot
      rcases ihinv with h | h
      · exact Or.inl h
      · right
        rw [h, hsnap]
    · show st.researchSources ⊆ (foldV2 (stepV2 st e) rest).researchSources
      exact hgrow.1.trans ihsub
    · show st.researchSources.length ≤ (foldV2 (stepV2 st e) rest).researchSources.length
      exact le_trans hgrow.2 ihlen

/-- Claim C5: within one V2 session the accumulated source set is monotone —
every source present after folding a prefix of the event sequence is still
present after folding any longer prefix, and its size never decreases.  (The
completion branch reads the render-time `streamingEvents` closure snapshot,
so the only value it can install is the snapshot-determined set; it never
removes previously installed sources.) -/
theorem c5_sources_monotone (snap es : List StreamingEvent) (i j : Nat) (hij : i ≤ j) :
    (foldV2 (initV2 snap) (es.take i)).researchSources ⊆
      (foldV2 (initV2 snap) (es.take j)).researchSources ∧
    (foldV2 (initV2 snap) (es.take i)).researchSources.length ≤
      (foldV2 (initV2 snap) (es.take j)).researchSources.length := by
  obtain ⟨k, rfl⟩ := Nat.exists_eq_add_of_le hij
  rw [List.take_add]
  have h0 := foldV2_mono (initV2 snap) (es.take i) (Or.inl rfl)
  have hinvI : (foldV2 (initV2 snap) (es.take i)).researchSources = [] ∨
      (foldV2 (initV2 snap) (es.take i)).researchSources =
        snapSources (foldV2 (initV2 snap) (es.take i)).snapshot := by
    rcases h0.2.1 with h | h
    · exact Or.inl h
    · right
      rw [h, h0.1]
  have h1 := foldV2_mono (foldV2 (initV2 snap) (es.take i)) ((es.drop i).take k) hinvI
  have hsplit : foldV2 (initV2 snap) (es.take i ++ (es.drop i).take k) =
      foldV2 (foldV2 (initV2 snap) (es.take i)) ((es.drop i).take k) := by
    unfold foldV2
    rw [List.foldl_append]
  rw [hsplit]
  exact ⟨h1.2.2.1, h1.2.2.2⟩

def snapEventWithUrl : StreamingEvent :=
  { type := some "research_step", content := some "see https://a.com now" }

/-- Claim C5 witness: a concrete V2 session whose snapshot ends in a
URL-bearing event, folding one and then two `research_complete` events. -/
theorem c5_sources_monotone_witness :
    (foldV2 (initV2 [snapEventWithUrl])
        ([sampleCompleteEvent, sampleCompleteEvent].take 1)).researchSources ⊆
      (foldV2 (initV2 [snapEventWithUrl])
        ([sampleCompleteEvent, sampleCompleteEvent].take 2)).researchSources ∧
    (foldV2 (initV2 [snapEventWithUrl])
        ([sampleCompleteEvent, sampleCompleteEvent].take 1)).researchSources.length ≤
      (foldV2 (initV2 [snapEventWithUrl])
        ([sampleCompleteEvent, sampleCompleteEvent].take 2)).researchSources.length :=
  c5_sources_monotone [snapEventWithUrl] [sampleCompleteEvent, sampleCompleteEvent] 1 2
    (by decide)

/-- Claim C8: in a multi-model comparison each model's per-run result is a
function of that model's own input alone (its stream lines and arrival times,
its start and end clock values, its own transport failure): whenever the
`i`-th (model, input) entries of two runs agree, the `i`-th results agree —
in particular an error in one sibling stream cannot contaminate another
model's result. -/
theorem c8_model_isolation (ins₁ ins₂ : List (String × ModelRunInput)) (i : Nat)
    (heq : ins₁[i]? = ins₂[i]?) :
    (runMultiModelComparison ins₁)[i]? = (runMultiModelComparison ins₂)[i]? := by
  unfold runMultiModelComparison
  rw [List.getElem?_map, List.getElem?_map, heq]

/-- A successfully completing comparison stream. -/
def okCmpInput : ModelRunInput :=
  { lines :=
      [ ("data: \x7b\"type\":\"stage_start\",\"stage\":\"clarification\",\"content\":\"Starting\"\x7d", 1000)
      , ("data: \x7b\"type\":\"research_step\",\"content\":\"one two three\"\x7d", 2000) ]
    startTime := 0
    endTime := 5000
    failure := none }

/-- A comparison stream whose transport fails mid-run. -/
def errCmpInput : ModelRunInput :=
  { lines := [("data: \x7b\"type\":\"research_step\",\"content\":\"partial\"\x7d", 1500)]
    startTime := 0
    endTime := 2000
    failure := some "network down" }

/-- Claim C8 witness: two concurrent two-model runs sharing the same second
entry — the erroring stream's result is identical across the runs even though
the sibling stream differs, and within one run the successful and failing
models keep their own success flags. -/
theorem c8_model_isolation_witness :
    (runMultiModelComparison [("anthropic", okCmpInput), ("kimi", errCmpInput)])[1]? =
      (runMultiModelComparison [("openai", errCmpInput), ("kimi", errCmpInput)])[1]? ∧
    (runMultiModelComparison [("anthropic", okCmpInput), ("kimi", errCmpInput)]).map
        CmpResult.success = [true, false] :=
  ⟨c8_model_isolation [("anthropic", okCmpInput), ("kimi", errCmpInput)]
      [("openai", errCmpInput), ("kimi", errCmpInput)] 1 rfl,
    by decide⟩
